import Mathlib

/-!
# Verification of `recover_account` management command

Shallow embedding of
`common/djangoapps/student/management/commands/recover_account.py`:
a batch tool that reads rows `(username, email, new_email)` from a CSV
file, looks up the matching account, overwrites its email address, and
sends a password-reset message to the old address, collecting per-row
successes and failures and logging a summary at the end.

External collaborators (the account store save, the token issuer, the
language-preference store, the notification dispatcher, site/platform
configuration) are parameters of an `Env` record; their fallible calls
are oracles so that every exception path of the `try` block is covered.
-/

namespace RecoverAccount

/-- An account record of the account store (Django `User`): the fields the
command reads or writes (`id`, `username`, `email`). -/
structure Account where
  id : Nat
  username : String
  email : String
deriving DecidableEq, Repr

/-- A raw CSV row as produced by `unicodecsv.DictReader`: an association
list from column name to cell text. -/
def RawRow := List (String × String)

/-- Python dict lookup `row[k]` as an `Option`: `none` models the
`KeyError` raised when the column is absent. -/
def dictGet (row : RawRow) (k : String) : Option String :=
  (row.find? (fun p => p.1 == k)).map (fun p => p.2)

/-- The message assembled by `send_password_reset_email`: recipient
identity (`Recipient(user.username, email)`), the language passed to
`personalize`, the template context fields the command sets, and the
reset link. -/
structure Message where
  recipientUsername : String
  recipientEmail : String
  language : Option String
  contextEmail : String
  platformName : String
  resetLink : String
deriving DecidableEq, Repr

/-- A log record emitted by the command: either the per-row failure line
`'Unable to send email to {email} and exception was {exp}'`, or the final
summary line carrying both outcome lists. -/
inductive LogEntry where
  | failure (email : String) (exc : String)
  | summary (successful : List String) (failed : List String)
deriving DecidableEq, Repr

/-- Whether a log entry is the final summary line. -/
def LogEntry.isSummary : LogEntry → Bool
  | .failure _ _ => false
  | .summary _ _ => true

/-- The external collaborators and ambient configuration of the command.
Fallible external calls return `Except`/`Option` errors so that every
exception source of the `try` block is modelled:
`saveExc u = some e` models `user.save()` raising `e`;
`sendResult m = .error e` models `ace.send(msg)` raising `e`.
`makeToken` is `default_token_generator.make_token` (Django): per the
spec it issues a single-use, account-bound, time-bounded token; here it
is an oracle from the account. `pref` is
`get_user_preference(user, LANGUAGE_KEY)`.
`platformDefaultLanguage` is the platform default that
`edx_ace` falls back to when no preference is set. -/
structure Env where
  fileExists : Bool
  siteName : String
  platformName : String
  platformDefaultLanguage : String
  pref : Account → Option String
  makeToken : Account → String
  saveExc : Account → Option String
  sendResult : Message → Except String Unit

/-- `django.utils.http.int_to_base36` digit table
(`'0123456789abcdefghijklmnopqrstuvwxyz'`). -/
def base36Char (n : Nat) : Char :=
  "0123456789abcdefghijklmnopqrstuvwxyz".toList.getD n '0'

/-- The accumulation loop of `int_to_base36`: repeatedly `divmod` by 36,
prepending each digit. -/
def base36Digits : Nat → List Char
  | 0 => []
  | n + 1 => base36Digits ((n + 1) / 36) ++ [base36Char ((n + 1) % 36)]
decreasing_by exact Nat.div_lt_self (Nat.succ_pos n) (by omega)

/-- `django.utils.http.int_to_base36`: compact base-36 rendering of a
non-negative integer; single digit returned directly when `i < 36`. -/
def int_to_base36 (i : Nat) : String :=
  if i < 36 then String.singleton (base36Char i)
  else String.mk (base36Digits i)

/-- Modelled from the spec: the URL reversal
`reverse('password_reset_confirm', kwargs={'uidb36': ..., 'token': ...})`
lives in URL configuration outside this fragment; per the spec the token
and the base36-encoded account id are embedded in the link path. -/
def reverse_password_reset_confirm (uidb36 token : String) : String :=
  "/password_reset_confirm/" ++ uidb36 ++ "-" ++ token ++ "/"

/-- The body of `send_password_reset_email`: builds the message context
(`email`, `platform_name`, `reset_link`) and personalizes it for
`Recipient(user.username, email)` with the user's language preference. -/
def buildMessage (env : Env) (user : Account) (email : String) : Message :=
  { recipientUsername := user.username
    recipientEmail := email
    language := env.pref user
    contextEmail := email
    platformName := env.platformName
    resetLink :=
      "http" ++ "://" ++ env.siteName ++
        reverse_password_reset_confirm (int_to_base36 user.id)
          (env.makeToken user) ++ "?track=pwreset" }

/-- Modelled from the spec: `edx_ace` localizes with the stored language
preference, "defaulting to the platform default when unset". -/
def resolvedLanguage (env : Env) (m : Message) : String :=
  match m.language with
  | some l => l
  | none => env.platformDefaultLanguage

/-- Case folding modelling the case-insensitive `iexact` comparison. -/
def lowerStr (s : String) : String := ⟨s.data.map Char.toLower⟩

/-- The filter of
`get_user_model().objects.get(Q(username=username) | Q(email__iexact=email))`:
username matches exactly, or email matches case-insensitively. -/
def matchesRow (username email : String) (a : Account) : Bool :=
  a.username == username || lowerStr a.email == lowerStr email

/-- `objects.get(...)`: exactly one match is returned; zero raises
`DoesNotExist`, several raise `MultipleObjectsReturned`. -/
def getUser (db : List Account) (username email : String) :
    Except String Account :=
  match db.filter (matchesRow username email) with
  | [a] => .ok a
  | [] => .error "DoesNotExist"
  | _ => .error "MultipleObjectsReturned"

/-- `user.save()` after `user.email = new_email`: persist the updated
email on the account with the user's id. -/
def saveEmail (db : List Account) (user : Account) : List Account :=
  db.map (fun a => if a.id == user.id then { a with email := user.email } else a)

/-- The mutable state of one run: the account store plus the two outcome
lists, the log, and the messages handed to `ace.send`. -/
structure RunState where
  db : List Account
  successful_updates : List String
  failed_updates : List String
  logs : List LogEntry
  sent : List Message
deriving DecidableEq, Repr

/-- The `try` block of the row loop: resolve the account, set and save
the new email, build and send the reset message. Returns the account
store as left by the block together with either the sent message or the
exception that escaped — mutations made before the exception point
persist (each `save()` is its own committed write). -/
def tryBlock (env : Env) (db : List Account)
    (username email new_email : String) :
    List Account × Except String Message :=
  match getUser db username email with
  | .error e => (db, .error e)
  | .ok user =>
    let user' := { user with email := new_email }
    match env.saveExc user' with
    | some e => (db, .error e)
    | none =>
      let db' := saveEmail db user'
      let msg := buildMessage env user' email
      match env.sendResult msg with
      | .error e => (db', .error e)
      | .ok _ => (db', .ok msg)

/-- One iteration of the row loop after field extraction: run the `try`
block; on success append `new_email` to `successful_updates`, on any
caught exception log it with the row's email and append `email` to
`failed_updates`. -/
def processRow (env : Env) (st : RunState)
    (username email new_email : String) : RunState :=
  match tryBlock env st.db username email new_email with
  | (db', .ok msg) =>
    { st with db := db'
              successful_updates := st.successful_updates ++ [new_email]
              sent := st.sent ++ [msg] }
  | (db', .error exc) =>
    { st with db := db'
              failed_updates := st.failed_updates ++ [email]
              logs := st.logs ++ [LogEntry.failure email exc] }

/-- The field extraction `row['username']; row['email']; row['new_email']`
performed before the `try` block: the first missing column raises an
uncaught `KeyError`. -/
def extractFields (row : RawRow) : Except String (String × String × String) :=
  match dictGet row "username" with
  | none => .error "KeyError: username"
  | some u =>
    match dictGet row "email" with
    | none => .error "KeyError: email"
    | some e =>
      match dictGet row "new_email" with
      | none => .error "KeyError: new_email"
      | some ne => .ok (u, e, ne)

/-- The row loop of `handle`: rows in file order; extraction failure
aborts the loop (the `KeyError` is outside the handler), returning the
state reached so far and the escaping exception. -/
def runRows (env : Env) : RunState → List RawRow → RunState × Option String
  | st, [] => (st, none)
  | st, row :: rest =>
    match extractFields row with
    | .error e => (st, some e)
    | .ok (u, e, ne) => runRows env (processRow env st u e ne) rest

/-- How a run of `Command.handle` terminates: `commandError` is the
`CommandError` raised before any row is touched; `uncaught` is an
exception (the `KeyError` of field extraction) escaping mid-loop, with
the state at that point; `completed` is normal completion with the
summary logged. -/
inductive Outcome where
  | commandError (msg : String)
  | uncaught (exc : String) (st : RunState)
  | completed (st : RunState)
deriving DecidableEq, Repr

/-- The initial run state: the pre-existing account store and empty
outcome lists. -/
def initState (db : List Account) : RunState :=
  { db := db, successful_updates := [], failed_updates := [],
    logs := [], sent := [] }

/-- `Command.handle`: check the file path (raising `CommandError 'File
not found.'` when it is not a file), read all rows, run the row loop,
and log the one summary line with both outcome lists. -/
def handle (env : Env) (db : List Account) (rows : List RawRow) : Outcome :=
  if env.fileExists = false then .commandError "File not found."
  else
    match runRows env (initState db) rows with
    | (st, some exc) => .uncaught exc st
    | (st, none) =>
      .completed
        { st with logs := st.logs ++
            [LogEntry.summary st.successful_updates st.failed_updates] }

/-! ## Concrete fixtures used by witnesses -/

/-- An environment where every external call succeeds. -/
def envOK : Env :=
  { fileExists := true, siteName := "example.edx.org", platformName := "edX"
    platformDefaultLanguage := "en"
    pref := fun _ => none
    makeToken := fun a => "tok-" ++ a.username
    saveExc := fun _ => none
    sendResult := fun _ => .ok () }

/-- An environment where the notification dispatcher raises. -/
def envSendFail : Env :=
  { envOK with sendResult := fun _ => .error "SMTPException" }

/-- A one-account store in the pre-migration state. -/
def dbW : List Account := [⟨1, "alice", "alice@old.com"⟩]

/-- The same store after migration: alice's email already updated. -/
def dbMig : List Account := [⟨1, "alice", "alice@new.com"⟩]

/-- The example row of the spec scenario. -/
def rowA : RawRow :=
  [("username", "alice"), ("email", "alice@old.com"),
   ("new_email", "alice@new.com")]

/-- A row missing the `new_email` column (header lacked it). -/
def rowNoNew : RawRow :=
  [("username", "alice"), ("email", "alice@old.com")]

/-! ## Supporting lemmas -/

/-- The row loop on a cons whose fields extract: process the row, then
recurse. -/
theorem runRows_cons_ok (env : Env) (st : RunState) (row : RawRow)
    (rest : List RawRow) (u e ne : String)
    (hx : extractFields row = .ok (u, e, ne)) :
    runRows env st (row :: rest) = runRows env (processRow env st u e ne) rest := by
  simp [runRows, hx]

/-- The row loop on a cons whose field extraction raises: the loop stops
and the exception escapes. -/
theorem runRows_cons_err (env : Env) (st : RunState) (row : RawRow)
    (rest : List RawRow) (exc : String)
    (hx : extractFields row = .error exc) :
    runRows env st (row :: rest) = (st, some exc) := by
  simp [runRows, hx]

/-- When the account resolution raises, the `try` block returns the
store untouched together with the exception. -/
theorem tryBlock_resolve_error (env : Env) (db : List Account)
    (u e ne exc : String) (hget : getUser db u e = .error exc) :
    tryBlock env db u e ne = (db, .error exc) := by
  simp [tryBlock, hget]

/-- Zero or several matches make `getUser` raise. -/
theorem getUser_error_of_length_ne_one (db : List Account) (u e : String)
    (h : (db.filter (matchesRow u e)).length ≠ 1) :
    ∃ exc, getUser db u e = .error exc := by
  unfold getUser
  rcases hf : db.filter (matchesRow u e) with _ | ⟨a, _ | ⟨b, t⟩⟩
  · exact ⟨"DoesNotExist", rfl⟩
  · exact absurd (by rw [hf]; rfl) h
  · exact ⟨"MultipleObjectsReturned", rfl⟩

/-! ## Claim theorems -/

/-- C1: the command resolves exactly one account whose username equals
`row.username` or whose email case-insensitively equals `row.email`
(`getUser` returns `a` precisely when `a` is the unique match); when the
match count is not one, the row fails: its original email is appended to
the failure list and no account's email is mutated. -/
theorem recover_account_C1 (env : Env) (st : RunState) (u e ne : String)
    (h : (st.db.filter (matchesRow u e)).length ≠ 1) :
    (∀ a, getUser st.db u e = .ok a ↔ st.db.filter (matchesRow u e) = [a]) ∧
    (processRow env st u e ne).db = st.db ∧
    (processRow env st u e ne).failed_updates = st.failed_updates ++ [e] ∧
    (processRow env st u e ne).successful_updates = st.successful_updates := by
  constructor
  · intro a
    unfold getUser
    rcases hf : st.db.filter (matchesRow u e) with _ | ⟨b, _ | ⟨c, t⟩⟩ <;>
      simp
  · obtain ⟨exc, hget⟩ := getUser_error_of_length_ne_one st.db u e h
    simp [processRow, tryBlock_resolve_error env st.db u e ne exc hget]

/-- C1 witness: a row matching no account in a concrete store. -/
theorem recover_account_C1_witness :
    (processRow envOK (initState dbW) "carol" "carol@x.com" "c@new.com").db =
      (initState dbW).db ∧
    (processRow envOK (initState dbW) "carol" "carol@x.com"
        "c@new.com").failed_updates =
      (initState dbW).failed_updates ++ ["carol@x.com"] ∧
    (processRow envOK (initState dbW) "carol" "carol@x.com"
        "c@new.com").successful_updates =
      (initState dbW).successful_updates :=
  (recover_account_C1 envOK (initState dbW) "carol" "carol@x.com" "c@new.com"
    (by decide)).2

/-- C3: an exception inside the `try` block of a row (resolution,
mutation or notification) is caught: the failure is logged with the
row's email and the exception detail, the email joins the failure list,
and the loop continues with the remaining rows — the run is not
aborted. -/
theorem recover_account_C3 (env : Env) (st : RunState) (row : RawRow)
    (rest : List RawRow) (u e ne exc : String) (db' : List Account)
    (hx : extractFields row = .ok (u, e, ne))
    (ht : tryBlock env st.db u e ne = (db', .error exc)) :
    runRows env st (row :: rest) =
      runRows env
        { st with db := db'
                  failed_updates := st.failed_updates ++ [e]
                  logs := st.logs ++ [LogEntry.failure e exc] }
        rest := by
  rw [runRows_cons_ok env st row rest u e ne hx]
  simp [processRow, ht]

/-- C3 witness: a failing row followed by further rows, continued. -/
theorem recover_account_C3_witness :
    runRows envOK (initState dbW)
        ([("username", "carol"), ("email", "c@x.com"),
          ("new_email", "c@new.com")] :: [rowA]) =
      runRows envOK
        { initState dbW with
            db := dbW
            failed_updates := (initState dbW).failed_updates ++ ["c@x.com"]
            logs := (initState dbW).logs ++
              [LogEntry.failure "c@x.com" "DoesNotExist"] }
        [rowA] :=
  recover_account_C3 envOK (initState dbW)
    [("username", "carol"), ("email", "c@x.com"), ("new_email", "c@new.com")]
    [rowA] "carol" "c@x.com" "c@new.com" "DoesNotExist" dbW
    rfl rfl

/-- C5: the command raises `CommandError 'File not found.'` exactly when
the path is not an existing file, before any row is processed (the
outcome then carries no run state); with an existing file the path check
never raises. -/
theorem recover_account_C5 (env : Env) (db : List Account)
    (rows : List RawRow) :
    ∀ m, handle env db rows = Outcome.commandError m ↔
      (env.fileExists = false ∧ m = "File not found.") := by
  intro m
  by_cases hf : env.fileExists = false
  · simp [handle, hf, eq_comm]
  · rcases hrr : runRows env (initState db) rows with ⟨st, o⟩
    cases o <;> simp [handle, hf, hrr]

/-- Each processed row grows exactly one of the two outcome lists by one
entry: `new_email` on success, `email` on failure. -/
theorem processRow_outcome (env : Env) (st : RunState) (u e ne : String) :
    ((processRow env st u e ne).successful_updates =
        st.successful_updates ++ [ne] ∧
      (processRow env st u e ne).failed_updates = st.failed_updates) ∨
    ((processRow env st u e ne).successful_updates = st.successful_updates ∧
      (processRow env st u e ne).failed_updates = st.failed_updates ++ [e]) := by
  unfold processRow
  rcases tryBlock env st.db u e ne with ⟨db', _ | msg⟩ <;> simp

/-- Across a non-aborting run of the loop, the outcome lists together
grow by exactly one entry per row. -/
theorem runRows_lengths (env : Env) :
    ∀ (rows : List RawRow) (st st' : RunState),
      runRows env st rows = (st', none) →
      st'.successful_updates.length + st'.failed_updates.length =
        st.successful_updates.length + st.failed_updates.length +
          rows.length := by
  intro rows
  induction rows with
  | nil => intro st st' h; simp [runRows] at h; simp [h]
  | cons row rest ih =>
    intro st st' h
    unfold runRows at h
    rcases hx : extractFields row with exc | ⟨u, e, ne⟩ <;> rw [hx] at h
    · simp at h
    · have hstep := ih (processRow env st u e ne) st' h
      rcases processRow_outcome env st u e ne with ⟨h1, h2⟩ | ⟨h1, h2⟩ <;>
        rw [h1, h2] at hstep <;> simp [hstep] <;> omega

/-- C2: when a run completes, every row has been attempted exactly once
and has landed in exactly one of the two outcome lists, so the lists'
lengths sum to the number of rows. -/
theorem recover_account_C2 (env : Env) (db : List Account)
    (rows : List RawRow) (st : RunState)
    (h : handle env db rows = Outcome.completed st) :
    st.successful_updates.length + st.failed_updates.length = rows.length := by
  unfold handle at h
  split at h
  · exact Outcome.noConfusion h
  · rcases hrr : runRows env (initState db) rows with ⟨st', o⟩
    rw [hrr] at h
    cases o with
    | some exc => exact Outcome.noConfusion h
    | none =>
      have hs := Outcome.completed.inj h
      have := runRows_lengths env rows (initState db) st' hrr
      rw [← hs]
      simpa [initState] using this

/-- C2 witness: a one-row file whose run completes. -/
theorem recover_account_C2_witness :
    ({ db := [⟨1, "alice", "alice@new.com"⟩]
       successful_updates := ["alice@new.com"]
       failed_updates := []
       logs := [LogEntry.summary ["alice@new.com"] []]
       sent := [{ recipientUsername := "alice"
                  recipientEmail := "alice@old.com"
                  language := none
                  contextEmail := "alice@old.com"
                  platformName := "edX"
                  resetLink :=
                    "http://example.edx.org/password_reset_confirm/1-tok-alice/?track=pwreset" }]
       : RunState }).successful_updates.length +
      ({ db := [⟨1, "alice", "alice@new.com"⟩]
         successful_updates := ["alice@new.com"]
         failed_updates := []
         logs := [LogEntry.summary ["alice@new.com"] []]
         sent := [{ recipientUsername := "alice"
                    recipientEmail := "alice@old.com"
                    language := none
                    contextEmail := "alice@old.com"
                    platformName := "edX"
                    resetLink :=
                      "http://example.edx.org/password_reset_confirm/1-tok-alice/?track=pwreset" }]
         : RunState }).failed_updates.length = [rowA].length :=
  recover_account_C2 envOK dbW [rowA] _ rfl

/-- The success path of one row: resolution, save and send all succeed;
the store gets the saved email, the success list the new email, and the
built message is handed to the dispatcher. -/
theorem processRow_success (env : Env) (st : RunState) (u e ne : String)
    (user : Account) (hget : getUser st.db u e = .ok user)
    (hsave : env.saveExc { user with email := ne } = none)
    (hsend : env.sendResult (buildMessage env { user with email := ne } e) =
      .ok ()) :
    processRow env st u e ne =
      { st with db := saveEmail st.db { user with email := ne }
                successful_updates := st.successful_updates ++ [ne]
                sent := st.sent ++ [buildMessage env { user with email := ne } e] } := by
  simp [processRow, tryBlock, hget, hsave, hsend]

/-- The notify-failure path of one row: resolution and save succeed, the
dispatcher raises; the saved store is kept and the row is logged and
recorded failed. -/
theorem processRow_sendFail (env : Env) (st : RunState) (u e ne exc : String)
    (user : Account) (hget : getUser st.db u e = .ok user)
    (hsave : env.saveExc { user with email := ne } = none)
    (hsend : env.sendResult (buildMessage env { user with email := ne } e) =
      .error exc) :
    processRow env st u e ne =
      { st with db := saveEmail st.db { user with email := ne }
                failed_updates := st.failed_updates ++ [e]
                logs := st.logs ++ [LogEntry.failure e exc] } := by
  simp [processRow, tryBlock, hget, hsave, hsend]

/-- After `saveEmail`, every stored account carrying the saved user's id
carries the saved email. -/
theorem saveEmail_id_email (db : List Account) (user : Account) :
    (saveEmail db user).all
      (fun a => !(a.id == user.id) || (a.email == user.email)) = true := by
  simp only [saveEmail, List.all_eq_true, List.mem_map]
  rintro a ⟨b, hb, rfl⟩
  by_cases h : b.id = user.id <;> simp [h]

/-- C4: when the mutation succeeds and the notification then fails, the
account keeps the new email (the save was persisted before the send
began) while the row's original email still lands in the failure list —
there is no partial-row rollback. -/
theorem recover_account_C4 (env : Env) (st : RunState) (u e ne exc : String)
    (user : Account) (hget : getUser st.db u e = .ok user)
    (hsave : env.saveExc { user with email := ne } = none)
    (hsend : env.sendResult (buildMessage env { user with email := ne } e) =
      .error exc) :
    (processRow env st u e ne).db = saveEmail st.db { user with email := ne } ∧
    (processRow env st u e ne).db.all
      (fun a => !(a.id == user.id) || (a.email == ne)) = true ∧
    (processRow env st u e ne).failed_updates = st.failed_updates ++ [e] ∧
    (processRow env st u e ne).successful_updates = st.successful_updates := by
  rw [processRow_sendFail env st u e ne exc user hget hsave hsend]
  refine ⟨rfl, ?_, by simp, by simp⟩
  simpa using saveEmail_id_email st.db { user with email := ne }

/-- C4 witness: a concrete store where the dispatcher raises. -/
theorem recover_account_C4_witness :
    (processRow envSendFail (initState dbW) "alice" "alice@old.com"
        "alice@new.com").db =
      saveEmail (initState dbW).db ⟨1, "alice", "alice@new.com"⟩ ∧
    (processRow envSendFail (initState dbW) "alice" "alice@old.com"
        "alice@new.com").db.all
      (fun a => !(a.id == 1) || (a.email == "alice@new.com")) = true ∧
    (processRow envSendFail (initState dbW) "alice" "alice@old.com"
        "alice@new.com").failed_updates =
      (initState dbW).failed_updates ++ ["alice@old.com"] ∧
    (processRow envSendFail (initState dbW) "alice" "alice@old.com"
        "alice@new.com").successful_updates =
      (initState dbW).successful_updates :=
  recover_account_C4 envSendFail (initState dbW) "alice" "alice@old.com"
    "alice@new.com" "SMTPException" ⟨1, "alice", "alice@old.com"⟩ rfl rfl rfl

/-- C6: on a successfully resolved row the reset message is sent to the
row's old email address, addressed to the recipient identified by the
account's username, with the account's stored language preference,
resolved to the platform default when no preference is set. -/
theorem recover_account_C6 (env : Env) (st : RunState) (u e ne : String)
    (user : Account) (hget : getUser st.db u e = .ok user)
    (hsave : env.saveExc { user with email := ne } = none)
    (hsend : env.sendResult (buildMessage env { user with email := ne } e) =
      .ok ()) :
    (processRow env st u e ne).sent =
      st.sent ++ [buildMessage env { user with email := ne } e] ∧
    (buildMessage env { user with email := ne } e).recipientEmail = e ∧
    (buildMessage env { user with email := ne } e).recipientUsername =
      user.username ∧
    (buildMessage env { user with email := ne } e).language =
      env.pref { user with email := ne } ∧
    resolvedLanguage env (buildMessage env { user with email := ne } e) =
      (env.pref { user with email := ne }).getD env.platformDefaultLanguage := by
  rw [processRow_success env st u e ne user hget hsave hsend]
  refine ⟨by simp, rfl, rfl, rfl, ?_⟩
  unfold resolvedLanguage buildMessage
  cases env.pref { user with email := ne } <;> rfl

/-- C6 witness: the spec scenario row, message to the old address. -/
theorem recover_account_C6_witness :
    (processRow envOK (initState dbW) "alice" "alice@old.com"
        "alice@new.com").sent =
      (initState dbW).sent ++
        [buildMessage envOK ⟨1, "alice", "alice@new.com"⟩ "alice@old.com"] ∧
    (buildMessage envOK ⟨1, "alice", "alice@new.com"⟩
        "alice@old.com").recipientEmail = "alice@old.com" ∧
    (buildMessage envOK ⟨1, "alice", "alice@new.com"⟩
        "alice@old.com").recipientUsername = "alice" ∧
    (buildMessage envOK ⟨1, "alice", "alice@new.com"⟩
        "alice@old.com").language =
      envOK.pref ⟨1, "alice", "alice@new.com"⟩ ∧
    resolvedLanguage envOK
        (buildMessage envOK ⟨1, "alice", "alice@new.com"⟩ "alice@old.com") =
      (envOK.pref ⟨1, "alice", "alice@new.com"⟩).getD
        envOK.platformDefaultLanguage :=
  recover_account_C6 envOK (initState dbW) "alice" "alice@old.com"
    "alice@new.com" ⟨1, "alice", "alice@old.com"⟩ rfl rfl rfl

/-- Numeric value of one base-36 digit character. -/
def base36Value (c : Char) : Nat :=
  if c.isDigit then c.toNat - 48 else c.toNat - 87

/-- Decoder of a base-36 digit string, most significant digit first. -/
def base36Decode (l : List Char) : Nat :=
  l.foldl (fun acc c => acc * 36 + base36Value c) 0

/-- Decoding after appending a digit. -/
theorem base36Decode_concat (l : List Char) (c : Char) :
    base36Decode (l ++ [c]) = base36Decode l * 36 + base36Value c := by
  simp [base36Decode, List.foldl_append]

/-- The digit table is inverted by `base36Value`. -/
theorem base36Value_char (m : Nat) (h : m < 36) :
    base36Value (base36Char m) = m := by
  interval_cases m <;> decide

/-- The accumulation loop of `int_to_base36` is inverted by the
decoder. -/
theorem base36Digits_decode (n : Nat) :
    base36Decode (base36Digits n) = n := by
  induction n using Nat.strong_induction_on with
  | _ n ih =>
    match n with
    | 0 => rw [base36Digits]; rfl
    | m + 1 =>
      rw [base36Digits, base36Decode_concat,
        ih ((m + 1) / 36) (Nat.div_lt_self (Nat.succ_pos m) (by omega)),
        base36Value_char ((m + 1) % 36) (Nat.mod_lt _ (by omega))]
      omega

/-- `int_to_base36` is a faithful compact encoding: decoding its digits
returns the encoded identifier. -/
theorem int_to_base36_decode (i : Nat) :
    base36Decode (int_to_base36 i).data = i := by
  unfold int_to_base36
  by_cases h : i < 36
  · simp only [h, if_true, String.singleton]
    show base36Decode ([] ++ [base36Char i]) = i
    rw [base36Decode_concat, base36Value_char i h]
    show 0 * 36 + i = i
    omega
  · simp only [h, if_false]
    exact base36Digits_decode i

/-- C9: the reset link of the message sent for a resolved account embeds
the base36 compact encoding of the account's id (from which the id is
recoverable) and the reset token the token issuer generated for that
account. -/
theorem recover_account_C9 (env : Env) (st : RunState) (u e ne : String)
    (user : Account) (hget : getUser st.db u e = .ok user)
    (hsave : env.saveExc { user with email := ne } = none)
    (hsend : env.sendResult (buildMessage env { user with email := ne } e) =
      .ok ()) :
    (processRow env st u e ne).sent =
      st.sent ++ [buildMessage env { user with email := ne } e] ∧
    (buildMessage env { user with email := ne } e).resetLink =
      "http" ++ "://" ++ env.siteName ++
        ("/password_reset_confirm/" ++ int_to_base36 user.id ++ "-" ++
          env.makeToken { user with email := ne } ++ "/") ++
        "?track=pwreset" ∧
    base36Decode (int_to_base36 user.id).data = user.id := by
  rw [processRow_success env st u e ne user hget hsave hsend]
  exact ⟨by simp, rfl, int_to_base36_decode user.id⟩

/-- C9 witness: the concrete link for alice's account. -/
theorem recover_account_C9_witness :
    (processRow envOK (initState dbW) "alice" "alice@old.com"
        "alice@new.com").sent =
      (initState dbW).sent ++
        [buildMessage envOK ⟨1, "alice", "alice@new.com"⟩ "alice@old.com"] ∧
    (buildMessage envOK ⟨1, "alice", "alice@new.com"⟩
        "alice@old.com").resetLink =
      "http" ++ "://" ++ envOK.siteName ++
        ("/password_reset_confirm/" ++ int_to_base36 1 ++ "-" ++
          envOK.makeToken ⟨1, "alice", "alice@new.com"⟩ ++ "/") ++
        "?track=pwreset" ∧
    base36Decode (int_to_base36 1).data = 1 :=
  recover_account_C9 envOK (initState dbW) "alice" "alice@old.com"
    "alice@new.com" ⟨1, "alice", "alice@old.com"⟩ rfl rfl rfl

/-- A processed row only ever adds per-row failure lines to the log,
never a summary line. -/
theorem processRow_logs (env : Env) (st : RunState) (u e ne : String) :
    ∀ l ∈ (processRow env st u e ne).logs,
      l ∈ st.logs ∨ l.isSummary = false := by
  unfold processRow
  rcases tryBlock env st.db u e ne with ⟨db', exc | msg⟩ <;> intro l hl
  · simp at hl
    rcases hl with h | h
    · exact Or.inl h
    · exact Or.inr (by simp [h, LogEntry.isSummary])
  · exact Or.inl hl

/-- The row loop never writes a summary line. -/
theorem runRows_logs_no_summary (env : Env) :
    ∀ (rows : List RawRow) (st : RunState),
      (∀ l ∈ st.logs, l.isSummary = false) →
      ∀ l ∈ (runRows env st rows).1.logs, l.isSummary = false := by
  intro rows
  induction rows with
  | nil => intro st h; simpa [runRows] using h
  | cons row rest ih =>
    intro st h
    unfold runRows
    rcases hx : extractFields row with exc | ⟨u, e, ne⟩
    · simpa using h
    · refine ih (processRow env st u e ne) ?_
      intro l hl
      rcases processRow_logs env st u e ne l hl with hmem | hns
      · exact h l hmem
      · exact hns

/-- When every row carries all three columns, the loop never aborts. -/
theorem runRows_no_abort (env : Env) :
    ∀ (rows : List RawRow) (st : RunState),
      (∀ r ∈ rows, (extractFields r).isOk = true) →
      (runRows env st rows).2 = none := by
  intro rows
  induction rows with
  | nil => intro st _; rfl
  | cons row rest ih =>
    intro st h
    unfold runRows
    rcases hx : extractFields row with exc | ⟨u, e, ne⟩
    · have := h row (by simp)
      rw [hx] at this
      simp [Except.isOk, Except.toBool] at this
    · exact ih (processRow env st u e ne) (fun r hr => h r (by simp [hr]))

/-- The state a completed run carries, `none` for the aborting
outcomes. -/
def completedState : Outcome → Option RunState
  | .completed st => some st
  | _ => none

/-- C8: with an existing file and well-formed columns the command always
completes normally — even when every row failed — and the completed
state's log holds exactly one summary entry, its last entry, carrying
the full success and failure lists. -/
theorem recover_account_C8 (env : Env) (db : List Account)
    (rows : List RawRow) (hfile : env.fileExists = true)
    (hext : ∀ r ∈ rows, (extractFields r).isOk = true) :
    completedState (handle env db rows) ≠ none ∧
    ∀ st, completedState (handle env db rows) = some st →
      st.logs.filter LogEntry.isSummary =
        [LogEntry.summary st.successful_updates st.failed_updates] ∧
      st.logs.getLast? =
        some (LogEntry.summary st.successful_updates st.failed_updates) := by
  rcases hrr : runRows env (initState db) rows with ⟨st', o⟩
  have ho : o = none := by
    have := runRows_no_abort env rows (initState db) hext
    rw [hrr] at this
    exact this
  subst ho
  have hrun : handle env db rows =
      Outcome.completed
        { st' with logs := st'.logs ++
            [LogEntry.summary st'.successful_updates st'.failed_updates] } := by
    simp [handle, hfile, hrr]
  have hns : ∀ l ∈ st'.logs, l.isSummary = false := by
    have := runRows_logs_no_summary env rows (initState db) (by simp [initState])
    rw [hrr] at this
    exact this
  rw [hrun]
  refine ⟨by simp [completedState], ?_⟩
  intro st hst
  simp [completedState] at hst
  subst hst
  have hnil : st'.logs.filter LogEntry.isSummary = [] :=
    List.filter_eq_nil_iff.mpr
      (fun l hl => by simpa [LogEntry.isSummary] using hns l hl)
  constructor
  · simp [List.filter_append, hnil, LogEntry.isSummary]
  · simp [List.getLast?_concat]

/-- C8 witness: a file whose single row fails still completes, with the
one summary line last. -/
theorem recover_account_C8_witness :
    (completedState (handle envOK dbMig
        [[("username", "nobody"), ("email", "x@x.com"),
          ("new_email", "y@y.com")]])).isSome = true ∧
    (({ db := dbMig, successful_updates := [], failed_updates := ["x@x.com"]
        logs := [LogEntry.failure "x@x.com" "DoesNotExist",
          LogEntry.summary [] ["x@x.com"]]
        sent := [] : RunState }).logs.filter LogEntry.isSummary =
      [LogEntry.summary [] ["x@x.com"]] ∧
    ({ db := dbMig, successful_updates := [], failed_updates := ["x@x.com"]
       logs := [LogEntry.failure "x@x.com" "DoesNotExist",
         LogEntry.summary [] ["x@x.com"]]
       sent := [] : RunState }).logs.getLast? =
      some (LogEntry.summary [] ["x@x.com"])) :=
  ⟨Option.isSome_iff_ne_none.mpr
      (recover_account_C8 envOK dbMig
        [[("username", "nobody"), ("email", "x@x.com"),
          ("new_email", "y@y.com")]] rfl (by decide)).1,
    (recover_account_C8 envOK dbMig
      [[("username", "nobody"), ("email", "x@x.com"),
        ("new_email", "y@y.com")]] rfl (by decide)).2 _ rfl⟩

/-- The row loop over a concatenation, when the first chunk does not
abort. -/
theorem runRows_append (env : Env) :
    ∀ (l1 l2 : List RawRow) (st : RunState),
      (runRows env st l1).2 = none →
      runRows env st (l1 ++ l2) = runRows env (runRows env st l1).1 l2 := by
  intro l1
  induction l1 with
  | nil => intro l2 st _; rfl
  | cons row rest ih =>
    intro l2 st h
    rcases hx : extractFields row with exc | ⟨u, e, ne⟩
    · rw [runRows_cons_err env st row rest exc hx] at h
      simp at h
    · have h' : (runRows env (processRow env st u e ne) rest).2 = none := by
        rw [runRows_cons_ok env st row rest u e ne hx] at h
        exact h
      calc runRows env st (row :: rest ++ l2)
          = runRows env (processRow env st u e ne) (rest ++ l2) :=
            runRows_cons_ok env st row (rest ++ l2) u e ne hx
        _ = runRows env (runRows env (processRow env st u e ne) rest).1 l2 :=
            ih l2 (processRow env st u e ne) h'
        _ = runRows env (runRows env st (row :: rest)).1 l2 := by
            rw [runRows_cons_ok env st row rest u e ne hx]

/-- C10: field extraction happens outside the per-row handler, so the
first row missing one of the three columns raises an uncaught `KeyError`
that aborts the whole run — after the mutations of all earlier rows have
already been committed, and with the summary never logged. -/
theorem recover_account_C10 (env : Env) (db : List Account)
    (rows1 : List RawRow) (row : RawRow) (rest : List RawRow) (exc : String)
    (hfile : env.fileExists = true)
    (h1 : ∀ r ∈ rows1, (extractFields r).isOk = true)
    (h2 : extractFields row = .error exc) :
    handle env db (rows1 ++ row :: rest) =
      Outcome.uncaught exc (runRows env (initState db) rows1).1 := by
  have hno : (runRows env (initState db) rows1).2 = none :=
    runRows_no_abort env rows1 (initState db) h1
  have happ := runRows_append env rows1 (row :: rest) (initState db) hno
  have hcons : runRows env (runRows env (initState db) rows1).1 (row :: rest) =
      ((runRows env (initState db) rows1).1, some exc) :=
    runRows_cons_err env (runRows env (initState db) rows1).1 row rest exc h2
  simp [handle, hfile, happ, hcons]

/-- C10 witness: a good row, then a row whose `new_email` column is
missing, then an unreached row; the run aborts with the first row's
mutation kept. -/
theorem recover_account_C10_witness :
    handle envOK dbW ([rowA] ++ rowNoNew :: [rowA]) =
      Outcome.uncaught "KeyError: new_email"
        (runRows envOK (initState dbW) [rowA]).1 :=
  recover_account_C10 envOK dbW [rowA] rowNoNew [rowA] "KeyError: new_email"
    rfl (by decide) rfl

/-- C7 counterexample: an already-migrated store (`alice@new.com`), a
row whose email matches no account and whose username is unique — the
claim puts the row's original email in the failure list, but the lookup
succeeds through the username and the row lands in the success list;
the failure list stays empty. -/
theorem recover_account_C7_counterexample :
    dbMig.all
      (fun a => !(lowerStr a.email == lowerStr "alice@old.com")) = true ∧
    (dbMig.filter (fun a => a.username == "alice")).length = 1 ∧
    (runRows envOK (initState dbMig) [rowA]).1.failed_updates = [] ∧
    (runRows envOK (initState dbMig) [rowA]).1.successful_updates =
      ["alice@new.com"] := by
  decide

/-- With no case-insensitive email match in the store, the lookup filter
degenerates to the username filter. -/
theorem filter_matchesRow_no_email (db : List Account) (u e : String)
    (hemail : ∀ x ∈ db, lowerStr x.email ≠ lowerStr e) :
    db.filter (matchesRow u e) = db.filter (fun x => x.username == u) := by
  refine List.filter_congr ?_
  intro x hx
  have hf : (lowerStr x.email == lowerStr e) = false :=
    beq_eq_false_iff_ne.mpr (hemail x hx)
  simp [matchesRow, hf]

/-- C7 amended: re-running on already-migrated rows, whose email no
longer matches any account, fails with the original email in the failure
list only when the username also matches no account; when the username
still matches exactly one account the lookup succeeds through it and the
row is processed again successfully. -/
theorem recover_account_C7_amended (env : Env) (st : RunState)
    (u e ne : String) (a : Account)
    (hemail : ∀ x ∈ st.db, lowerStr x.email ≠ lowerStr e) :
    (st.db.filter (fun x => x.username == u) = [] →
      (processRow env st u e ne).failed_updates = st.failed_updates ++ [e] ∧
      (processRow env st u e ne).successful_updates =
        st.successful_updates) ∧
    (st.db.filter (fun x => x.username == u) = [a] →
      env.saveExc { a with email := ne } = none →
      env.sendResult (buildMessage env { a with email := ne } e) = .ok () →
      (processRow env st u e ne).successful_updates =
        st.successful_updates ++ [ne] ∧
      (processRow env st u e ne).failed_updates = st.failed_updates) := by
  have hcong := filter_matchesRow_no_email st.db u e hemail
  constructor
  · intro hnil
    have hget : getUser st.db u e = .error "DoesNotExist" := by
      unfold getUser
      rw [hcong, hnil]
    simp [processRow, tryBlock_resolve_error env st.db u e ne _ hget]
  · intro hone hsave hsend
    have hget : getUser st.db u e = .ok a := by
      unfold getUser
      rw [hcong, hone]
    rw [processRow_success env st u e ne a hget hsave hsend]
    simp

/-- C7 amended witness: on the migrated store the still-matching
username makes the row succeed again. -/
theorem recover_account_C7_witness :
    (processRow envOK (initState dbMig) "alice" "alice@old.com"
        "alice@new.com").successful_updates =
      (initState dbMig).successful_updates ++ ["alice@new.com"] ∧
    (processRow envOK (initState dbMig) "alice" "alice@old.com"
        "alice@new.com").failed_updates =
      (initState dbMig).failed_updates :=
  (recover_account_C7_amended envOK (initState dbMig) "alice"
      "alice@old.com" "alice@new.com" ⟨1, "alice", "alice@new.com"⟩
      (by decide)).2
    (by decide) rfl rfl

end RecoverAccount
